import Mathlib

/-!
Verification development for the crypto_analyzer repository.

The analytics core of the repository is a pandas pipeline:
`download_historical_data.save_combined_data` aligns per-asset price
series into combined price/return matrices, `analyze_correlations`
computes per-asset return statistics and the pairwise correlation
matrix, and `analyze_price_distance` builds the equal-weight market
series and per-asset divergence records.

The embedding below models a pandas column of float values as
`List (Option ℚ)`: `none` stands for NaN (a missing value), `some q`
for a finite float, with exact rational arithmetic in place of IEEE
doubles.  Where the pipeline can produce non-finite floats (division
by zero) the result type `FloatVal` carries explicit `nan`/`pinf`/`ninf`
constructors mirroring IEEE semantics.  Irrational values (square
roots, fractional powers) live in `ℝ`.
-/

/-- A pandas column of daily returns: `none` models NaN. -/
abbrev Col := List (Option ℚ)

/-- The values of a column that are present (non-NaN); pandas
`skipna=True` reductions operate on exactly these. -/
def presentVals (c : List (Option ℚ)) : List ℚ := c.filterMap id

/-- Pandas `Series.mean()` (skipna): mean of the present values, NaN when
there are none. -/
def nanmean (c : List (Option ℚ)) : Option ℚ :=
  let xs := presentVals c
  if xs.length = 0 then none else some (xs.sum / xs.length)

/-- Pandas `Series.var()` (skipna, ddof=1): sample variance of the present
values, NaN when fewer than 2 are present. -/
def nanvar (c : List (Option ℚ)) : Option ℚ :=
  let xs := presentVals c
  if xs.length < 2 then none
  else some ((xs.map (fun x => (x - xs.sum / xs.length) ^ 2)).sum / ((xs.length : ℚ) - 1))

/-- An IEEE-style value: finite, positive/negative infinity, or NaN. -/
inductive FloatVal (α : Type) where
  | nan : FloatVal α
  | pinf : FloatVal α
  | ninf : FloatVal α
  | fin (x : α) : FloatVal α
deriving DecidableEq

/-- IEEE division of two finite values, as numpy performs it:
`0/0 = NaN`, `a/0 = ±inf` for `a ≠ 0`, ordinary division otherwise. -/
def fdivQ (a b : ℚ) : FloatVal ℚ :=
  if b = 0 then
    (if a = 0 then .nan else if 0 < a then .pinf else .ninf)
  else .fin (a / b)

/-- Pandas `Series.pct_change()`: NaN in position 0, then
`price[i]/price[i-1] - 1`.  The result has the length of its input. -/
def pctChange (ps : List ℚ) : List (Option ℚ) :=
  match ps with
  | [] => []
  | p :: rest => none :: List.zipWith (fun prev cur => some (cur / prev - 1)) (p :: rest) rest

/-- One asset's historical DataFrame as built by
`download_historical_data`: rows of `(date, price)`.  The
`daily_return` column is always added by the download step
(`df['daily_return'] = df['price'].pct_change()`), so it is modelled
as a derived column. -/
structure AssetDF where
  rows : List (String × ℚ)
deriving DecidableEq

/-- The price column of an asset DataFrame. -/
def AssetDF.price (df : AssetDF) : List ℚ := df.rows.map Prod.snd

/-- The date column of an asset DataFrame. -/
def AssetDF.date (df : AssetDF) : List String := df.rows.map Prod.fst

/-- The daily_return column of an asset DataFrame. -/
def AssetDF.daily_return (df : AssetDF) : List (Option ℚ) := pctChange df.price

/-- `len(df)`: the number of rows. -/
def AssetDF.len (df : AssetDF) : ℕ := df.rows.length

/-- The combined matrices written by `save_combined_data`:
`combined_prices.csv` and `combined_returns.csv`, each a date column
plus one column per included asset. -/
structure CombinedData where
  date : List String
  prices : List (String × List ℚ)
  returns : List (String × Col)
deriving DecidableEq

/-- The fatal error of the alignment stage (spec §7 `NoDataError`):
the input mapping is empty.  In the source this is the
`if not historical_data: logger.error(...); return` branch, which
produces no combined matrices, so no downstream stage has input. -/
inductive DataError where
  | noData : DataError
deriving DecidableEq

/-- `save_combined_data` (download_historical_data.py, lines 266-303):
the reference calendar is the first asset's date column; an asset's
price (and daily_return) column is included verbatim iff its row count
equals the reference row count; with an empty input mapping the stage
fails without output. -/
def save_combined_data (hd : List (String × AssetDF)) : Except DataError CombinedData :=
  match hd with
  | [] => .error .noData
  | (_, df₀) :: _ =>
    .ok { date := df₀.date
          prices := hd.filterMap fun p =>
            if p.2.len = df₀.len then some (p.1, p.2.price) else none
          returns := hd.filterMap fun p =>
            if p.2.len = df₀.len then some (p.1, p.2.daily_return) else none }

/-- Pandas `Series.cumprod()`: running products. -/
def cumprod : List ℚ → List ℚ
  | [] => []
  | x :: xs => x :: (cumprod xs).map (fun y => x * y)

/-- `calculate_average_changes` cumulative return
(analyze_correlations.py, line 78): `(1 + returns).prod() - 1`, a
skipna product, so NaN returns contribute no factor. -/
def cumulativeReturn (c : Col) : ℚ :=
  ((presentVals c).map (fun r => 1 + r)).prod - 1

/-- `calculate_price_distance` per-asset cumulative series
(analyze_price_distance.py, line 107):
`(1 + col.fillna(0)).cumprod() - 1`. -/
def cum_returns_col (c : Col) : List ℚ :=
  (cumprod (c.map (fun o => 1 + o.getD 0))).map (fun x => x - 1)

/-- The aligned return matrix consumed by the analysis scripts: a date
axis and one labelled column per asset. -/
structure ReturnsDF where
  date : List String
  cols : List (String × Col)
deriving DecidableEq

/-- `calculate_market_average` (analyze_price_distance.py, lines 55-83):
`returns_only.mean(axis=1)`, the skipna cross-sectional mean of each
date's row. -/
def calculate_market_average (rdf : ReturnsDF) : List (Option ℚ) :=
  (List.range rdf.date.length).map fun t =>
    nanmean (rdf.cols.map (fun c => c.2.getD t none))

/-- One row of the `distance_df` table built by
`calculate_price_distance`. -/
structure DistRow where
  symbol : String
  cumulative_return : ℚ
  price_distance : ℚ
  market_return : ℚ
  relative_distance : FloatVal ℚ
deriving DecidableEq

/-- Descending comparison on `price_distance`, the key of
`distance_df.sort_values('price_distance', ascending=False)`. -/
def distGE (a b : DistRow) : Prop := b.price_distance ≤ a.price_distance

instance : DecidableRel distGE := fun a b =>
  inferInstanceAs (Decidable (b.price_distance ≤ a.price_distance))

/-- The quadruple returned by `calculate_price_distance`. -/
structure PriceDistanceResult where
  distance_df : List DistRow
  out_of_threshold : List DistRow
  cum_returns : List (String × List ℚ)
  cum_dates : List String
  market_cum_return : List ℚ
deriving DecidableEq

/-- `calculate_price_distance` (analyze_price_distance.py, lines 85-162).
Per asset: the zero-filled compounded cumulative series and its final
value; the market cumulative series likewise; `price_distance` is the
absolute gap of the final values and `relative_distance` divides it by
`abs(final_market_return)` with numpy float-division semantics.  The
table is sorted descending by distance and filtered with a strict `>`
against the threshold.  `none` models the IndexError `iloc[-1]` raises
on an empty frame; sorting is modelled by a stable insertion sort (the
source's numpy quicksort fixes no tie order). -/
def calculate_price_distance (rdf : ReturnsDF) (market_avg : List (Option ℚ))
    (threshold : ℚ) : Option PriceDistanceResult :=
  let cumcols := rdf.cols.map fun c => (c.1, cum_returns_col c.2)
  let market_cum := (cumprod (market_avg.map (fun o => 1 + o.getD 0))).map (fun x => x - 1)
  match market_cum.getLast? with
  | none => none
  | some final_market =>
    let rows := cumcols.map fun p =>
      let fc := p.2.getLastD 0
      { symbol := p.1
        cumulative_return := fc
        price_distance := |fc - final_market|
        market_return := final_market
        relative_distance := fdivQ |fc - final_market| |final_market| : DistRow }
    let sorted := List.insertionSort distGE rows
    some { distance_df := sorted
           out_of_threshold := sorted.filter (fun r => decide (threshold < r.price_distance))
           cum_returns := cumcols
           cum_dates := rdf.date
           market_cum_return := market_cum }

/-- One entry of the `coins` payload of `generate_comparison_data`. -/
structure CoinRec where
  name : String
  data : List ℚ
  cumulative_return : ℚ
  price_distance : ℚ
  relative_distance : FloatVal ℚ
deriving DecidableEq

/-- The denormalized payload written to `comparison_data.json`. -/
structure ComparisonData where
  dates : List String
  market_avg : List ℚ
  coins : List (String × CoinRec)
deriving DecidableEq

/-- `generate_comparison_data` (analyze_price_distance.py, lines
164-202): dates and market cumulative series verbatim, plus one coin
record per out-of-threshold row, whose `data` is the coin's column of
the cumulative-returns frame (label lookup; the `getD []` default is
unreachable in the pipeline, where every out-of-threshold symbol is a
column of `cum_returns`). -/
def generate_comparison_data (cum_returns : List (String × List ℚ))
    (cum_dates : List String) (market_cum : List ℚ)
    (out : List DistRow) : ComparisonData :=
  { dates := cum_dates
    market_avg := market_cum
    coins := out.map fun r =>
      (r.symbol,
        { name := r.symbol
          data := ((cum_returns.find? (fun p => p.1 = r.symbol)).map Prod.snd).getD []
          cumulative_return := r.cumulative_return
          price_distance := r.price_distance
          relative_distance := r.relative_distance }) }

/-- The pairwise-complete overlap of two columns: the rows where both
values are present.  Pandas `DataFrame.corr` (via `nancorr`) computes
each entry over exactly these rows. -/
def overlap (xs ys : Col) : List (ℚ × ℚ) :=
  (List.zip xs ys).filterMap fun p =>
    match p.1, p.2 with
    | some a, some b => some (a, b)
    | _, _ => none

/-- Mean of the first components of the overlapping pairs. -/
def meanFst (ps : List (ℚ × ℚ)) : ℚ := (ps.map Prod.fst).sum / ps.length

/-- Mean of the second components of the overlapping pairs. -/
def meanSnd (ps : List (ℚ × ℚ)) : ℚ := (ps.map Prod.snd).sum / ps.length

/-- Centered sum of squares of the first components (`sumxx` in
pandas `nancorr`). -/
def cSumXX (ps : List (ℚ × ℚ)) : ℚ := (ps.map (fun p => (p.1 - meanFst ps) ^ 2)).sum

/-- Centered sum of squares of the second components (`sumyy`). -/
def cSumYY (ps : List (ℚ × ℚ)) : ℚ := (ps.map (fun p => (p.2 - meanSnd ps) ^ 2)).sum

/-- Centered sum of products (`sumxy`). -/
def cSumXY (ps : List (ℚ × ℚ)) : ℚ :=
  (ps.map (fun p => (p.1 - meanFst ps) * (p.2 - meanSnd ps))).sum

/-- Whether `nancorr` produces a value for this pair of columns: at
least `min_periods = 1` overlapping observations and a nonzero divisor
(`sqrt(sumxx*sumyy) ≠ 0`, i.e. `sumxx * sumyy ≠ 0`). -/
def corrDefinedb (xs ys : Col) : Bool :=
  let ps := overlap xs ys
  decide (1 ≤ ps.length ∧ cSumXX ps * cSumYY ps ≠ 0)

open Classical in
/-- The clamp `nancorr` applies to a computed correlation: values are
clipped into `[-1, 1]` to remove floating-point excess. -/
noncomputable def clip (v : ℝ) : ℝ :=
  if 1 < v then 1 else if v < -1 then -1 else v

open Classical in
/-- One entry of `DataFrame.corr()` (pandas `nancorr`, pearson,
`min_periods = 1`): NaN when fewer than 1 overlapping observation or
when the divisor `sqrt(sumxx * sumyy)` is zero, else the clipped
Pearson coefficient over the pairwise-complete rows. -/
noncomputable def corrEntry (xs ys : Col) : Option ℝ :=
  let ps := overlap xs ys
  if ps.length < 1 then none
  else if cSumXX ps * cSumYY ps = 0 then none
  else some (clip ((cSumXY ps : ℝ) / Real.sqrt ((cSumXX ps : ℝ) * (cSumYY ps : ℝ))))

/-- `create_correlation_matrix` (analyze_correlations.py, lines
106-136): `returns_only.corr()`, one labelled row per asset, each row
holding that asset's correlation with every asset in column order. -/
noncomputable def create_correlation_matrix (cols : List (String × Col)) :
    List (String × List (Option ℝ)) :=
  cols.map fun c => (c.1, cols.map fun d => corrEntry c.2 d.2)

/-- Pandas skipna mean over real-valued entries (used for the average
of a correlation row). -/
noncomputable def nanmeanR (l : List (Option ℝ)) : Option ℝ :=
  let xs := l.filterMap id
  if xs.length = 0 then none else some (xs.sum / xs.length)

/-- The `avg_corr_df` table of `identify_uncorrelated_coins`
(analyze_correlations.py, lines 152-163): for each asset,
`corr_matrix[coin].drop(coin).mean()` — the skipna mean of the asset's
correlation column after dropping the row with the asset's own label.
Column selection is positional via the row's index, which coincides
with label selection because the matrix labels are the (unique) input
symbols. -/
noncomputable def avg_correlation_table (m : List (String × List (Option ℝ))) :
    List (String × Option ℝ) :=
  m.enum.map fun ir =>
    (ir.2.1, nanmeanR (m.filterMap fun r =>
      if r.1 = ir.2.1 then none else some (r.2.getD ir.1 none)))

/-- Ascending comparison on the average-correlation value with NaN
sorted last, the key of `avg_corr_df.sort_values('avg_correlation')`. -/
def leOptAsc (a b : String × Option ℝ) : Prop :=
  match a.2, b.2 with
  | some x, some y => x ≤ y
  | some _, none => True
  | none, some _ => False
  | none, none => True

/-- The strict `<` mask `avg_corr_df['avg_correlation'] < threshold`:
false on NaN (as every float comparison with NaN is). -/
def optLtR (o : Option ℝ) (t : ℝ) : Prop :=
  match o with
  | none => False
  | some v => v < t

open Classical in
/-- `identify_uncorrelated_coins` (analyze_correlations.py, lines
138-190): sort the average-correlation table ascending, then keep the
rows strictly below the threshold.  The stable insertion sort models
`sort_values` up to tie order, which the source (numpy quicksort)
leaves unspecified. -/
noncomputable def identify_uncorrelated_coins (m : List (String × List (Option ℝ)))
    (threshold : ℝ) : List (String × Option ℝ) :=
  (List.insertionSort leOptAsc (avg_correlation_table m)).filter
    fun r => decide (optLtR r.2 threshold)

/-- Pandas `Series.std()` (skipna, ddof=1): square root of the sample
variance, NaN when fewer than 2 present values. -/
noncomputable def nanstd (c : Col) : Option ℝ :=
  (nanvar c).map fun v => Real.sqrt (v : ℝ)

/-- Multiplication by the positive constant `sqrt(365)`, as applied to
the reward/variance ratio: infinities and NaN are preserved, finite
values are scaled. -/
noncomputable def scaleSqrt365 : FloatVal ℝ → FloatVal ℝ
  | .nan => .nan
  | .pinf => .pinf
  | .ninf => .ninf
  | .fin x => .fin (x * Real.sqrt 365)

/-- The reward/variance ratio of `calculate_average_changes`
(analyze_correlations.py, line 85):
`avg_daily_returns / std_daily_returns * np.sqrt(365)` with numpy
float semantics — NaN if either moment is NaN, `±inf` when the std is
0 and the mean is not, NaN when both are 0. -/
noncomputable def sharpe_value (c : Col) : FloatVal ℝ :=
  scaleSqrt365 <|
    match nanmean c, nanstd c with
    | some a, some b =>
      if b = 0 then (if a = 0 then .nan else if 0 < a then .pinf else .ninf)
      else .fin ((a : ℝ) / b)
    | _, _ => .nan

/-- `calculate_average_changes` annualized return
(analyze_correlations.py, line 82):
`(1 + cumulative) ** (365 / days_count) - 1`. -/
noncomputable def annualizedReturn (c : Col) (days : ℕ) : ℝ :=
  (1 + (cumulativeReturn c : ℝ)) ^ ((365 : ℝ) / days) - 1

/-- One row of the `summary_df` table of `calculate_average_changes`. -/
structure SummaryRow where
  symbol : String
  avg_daily_return : Option ℚ
  std_daily_return : Option ℝ
  cumulative_return : ℚ
  annualized_return : ℝ
  sharpe : FloatVal ℝ

/-- Descending comparison on `annualized_return`, the key of
`summary_df.sort_values('annualized_return', ascending=False)`. -/
def annGE (a b : SummaryRow) : Prop := b.annualized_return ≤ a.annualized_return

open Classical in
/-- `calculate_average_changes` (analyze_correlations.py, lines
55-104): one summary row per asset column, sorted descending by
annualized return.  The stable insertion sort models `sort_values` up
to tie order, which the source (numpy quicksort) leaves unspecified. -/
noncomputable def calculate_average_changes (rdf : ReturnsDF) : List SummaryRow :=
  List.insertionSort annGE <| rdf.cols.map fun c =>
    { symbol := c.1
      avg_daily_return := nanmean c.2
      std_daily_return := nanstd c.2
      cumulative_return := cumulativeReturn c.2
      annualized_return := annualizedReturn c.2 rdf.date.length
      sharpe := sharpe_value c.2 }

/-- The outputs of the downstream analysis stages, as computed by
`analyze_correlations.py` and `analyze_price_distance.py` on the
combined matrices. -/
structure AnalysisOutputs where
  summary : List SummaryRow
  corr : List (String × List (Option ℝ))
  uncorrelated : List (String × Option ℝ)
  market : List (Option ℚ)
  distance : Option PriceDistanceResult

/-- The downstream pipeline: the analysis stages run exactly when the
alignment stage produced combined matrices (the analysis scripts guard
on `load_combined_data` succeeding, which requires the files the
alignment stage writes), with the default thresholds 0.3. -/
noncomputable def runAnalysis (r : Except DataError CombinedData) :
    Except DataError AnalysisOutputs :=
  r.map fun cd =>
    let rdf : ReturnsDF := ⟨cd.date, cd.returns⟩
    let market := calculate_market_average rdf
    { summary := calculate_average_changes rdf
      corr := create_correlation_matrix cd.returns
      uncorrelated := identify_uncorrelated_coins (create_correlation_matrix cd.returns) (3/10)
      market := market
      distance := calculate_price_distance rdf market (3/10) }

/-! ### Compounding lemmas -/

lemma presentVals_map_some (rs : List ℚ) : presentVals (rs.map some) = rs := by
  induction rs with
  | nil => rfl
  | cons r rs ih => simp [presentVals]

lemma prod_skipna_eq_fill (c : Col) :
    ((presentVals c).map (fun r => 1 + r)).prod = (c.map (fun o => 1 + o.getD 0)).prod := by
  induction c with
  | nil => rfl
  | cons o c ih =>
    cases o with
    | none => simpa [presentVals] using ih
    | some a =>
      simp [presentVals] at ih ⊢
      exact Or.inl ih

lemma cumprod_getLast? (l : List ℚ) :
    (cumprod l).getLast? = if l = [] then none else some l.prod := by
  induction l with
  | nil => rfl
  | cons x xs ih =>
    cases xs with
    | nil => simp [cumprod]
    | cons y ys =>
      rw [cumprod, List.getLast?_cons, List.getLast?_map, ih]
      simp [mul_comm, mul_assoc, mul_left_comm]

lemma cumprod_length (l : List ℚ) : (cumprod l).length = l.length := by
  induction l with
  | nil => rfl
  | cons x xs ih => simp [cumprod, ih]

lemma cum_returns_col_length (c : Col) : (cum_returns_col c).length = c.length := by
  simp [cum_returns_col, cumprod_length]

lemma cum_returns_col_getLast? (c : Col) :
    (cum_returns_col c).getLast? =
      if c = [] then none else some ((c.map (fun o => 1 + o.getD 0)).prod - 1) := by
  rw [cum_returns_col, List.getLast?_map, cumprod_getLast?]
  by_cases h : c = [] <;> simp [h]

/-- C3. Both engines' cumulative returns compound `(1 + r)` with missing
values contributing a factor of 1 (a no-change day): the skipna product
of `calculate_average_changes` equals the zero-filled product, the final
entry of `calculate_price_distance`'s zero-filled cumulative series is
the same value, and on a sequence with no missing values the result is
exactly `product(1 + r_i) - 1` (so it is within any tolerance of it). -/
theorem cumulative_return_compounds (c : Col) (rs : List ℚ) :
    cumulativeReturn c = (c.map (fun o => 1 + o.getD 0)).prod - 1
    ∧ (cum_returns_col c).getLast? =
        (if c = [] then none else some (cumulativeReturn c))
    ∧ cumulativeReturn (rs.map some) = (rs.map (fun r => 1 + r)).prod - 1 := by
  refine ⟨by rw [cumulativeReturn, prod_skipna_eq_fill], ?_, ?_⟩
  · rw [cum_returns_col_getLast?, cumulativeReturn, prod_skipna_eq_fill]
  · rw [cumulativeReturn, presentVals_map_some]

/-! ### Pipeline failure on empty input -/

/-- C7. On an empty input mapping the alignment stage fails with the
`NoDataError` value and produces no combined matrices, and the
downstream analysis stages, which consume its output, produce nothing
either. -/
theorem empty_input_fails_no_downstream :
    save_combined_data [] = .error .noData
    ∧ runAnalysis (save_combined_data []) = .error .noData := by
  constructor
  · rfl
  · rfl

/-! ### Alignment: inclusion is decided by length against the reference axis -/

lemma value_eq_of_key_nodup {α β : Type} {l : List (α × β)}
    (h : (l.map Prod.fst).Nodup) {s : α} {b c : β}
    (h1 : (s, b) ∈ l) (h2 : (s, c) ∈ l) : b = c := by
  induction l with
  | nil => cases h1
  | cons p tl ih =>
    rw [List.map_cons, List.nodup_cons] at h
    rcases List.mem_cons.1 h1 with e1 | m1
    · rcases List.mem_cons.1 h2 with e2 | m2
      · rw [← e1] at e2; exact (Prod.mk.injEq _ _ _ _ ▸ e2).2.symm
      · exact absurd (List.mem_map.2 ⟨(s, c), m2, by rw [← e1]⟩) h.1
    · rcases List.mem_cons.1 h2 with e2 | m2
      · exact absurd (List.mem_map.2 ⟨(s, b), m1, by rw [← e2]⟩) h.1
      · exact ih h.2 m1 m2

/-- C2. An asset's column appears in the combined price matrix iff its
native row count equals the reference row count (the first asset's),
and then it appears verbatim; the same for the returns matrix; an
asset whose length differs is absent from both, and the stage still
succeeds (no error is raised for it). -/
theorem asset_included_iff_length_matches (hd : List (String × AssetDF)) (s : String)
    (df : AssetDF) (h0 : hd ≠ []) (hmem : (s, df) ∈ hd)
    (hnd : (hd.map Prod.fst).Nodup) :
    ∃ cd, save_combined_data hd = .ok cd
      ∧ ((s, df.price) ∈ cd.prices ↔ df.len = (hd.head h0).2.len)
      ∧ ((s, df.daily_return) ∈ cd.returns ↔ df.len = (hd.head h0).2.len)
      ∧ (df.len ≠ (hd.head h0).2.len →
          (∀ c ∈ cd.prices, c.1 ≠ s) ∧ (∀ c ∈ cd.returns, c.1 ≠ s)) := by
  match hd, h0 with
  | (s₀, df₀) :: tl, _ =>
    refine ⟨_, rfl, ?_, ?_, ?_⟩
    · constructor
      · intro hin
        rcases List.mem_filterMap.1 hin with ⟨p, hp, hf⟩
        by_cases hl : p.2.len = df₀.len
        · rw [if_pos hl] at hf
          have hs : p.1 = s := congrArg Prod.fst (Option.some.inj hf)
          have : p.2 = df := value_eq_of_key_nodup hnd (hs ▸ hp) hmem
          simpa [← this] using hl
        · rw [if_neg hl] at hf; cases hf
      · intro hl
        exact List.mem_filterMap.2 ⟨(s, df), hmem, by simp_all⟩
    · constructor
      · intro hin
        rcases List.mem_filterMap.1 hin with ⟨p, hp, hf⟩
        by_cases hl : p.2.len = df₀.len
        · rw [if_pos hl] at hf
          have hs : p.1 = s := congrArg Prod.fst (Option.some.inj hf)
          have : p.2 = df := value_eq_of_key_nodup hnd (hs ▸ hp) hmem
          simpa [← this] using hl
        · rw [if_neg hl] at hf; cases hf
      · intro hl
        exact List.mem_filterMap.2 ⟨(s, df), hmem, by simp_all⟩
    · intro hne
      constructor
      · intro c hc hcs
        rcases List.mem_filterMap.1 hc with ⟨p, hp, hf⟩
        by_cases hl : p.2.len = df₀.len
        · rw [if_pos hl] at hf
          have hs : p.1 = s := hcs ▸ congrArg Prod.fst (Option.some.inj hf)
          have : p.2 = df := value_eq_of_key_nodup hnd (hs ▸ hp) hmem
          exact hne (this ▸ hl)
        · rw [if_neg hl] at hf; cases hf
      · intro c hc hcs
        rcases List.mem_filterMap.1 hc with ⟨p, hp, hf⟩
        by_cases hl : p.2.len = df₀.len
        · rw [if_pos hl] at hf
          have hs : p.1 = s := hcs ▸ congrArg Prod.fst (Option.some.inj hf)
          have : p.2 = df := value_eq_of_key_nodup hnd (hs ▸ hp) hmem
          exact hne (this ▸ hl)
        · rw [if_neg hl] at hf; cases hf

/-- Witness for C2: a 4-row asset against a 5-row reference axis is
absent from both combined matrices and causes no error. -/
theorem asset_included_iff_length_matches_witness :
    ∃ cd,
      save_combined_data
        [("BTC", ⟨[("d1", 1), ("d2", 2), ("d3", 3), ("d4", 4), ("d5", 5)]⟩),
         ("XYZ", ⟨[("d1", 1), ("d2", 2), ("d3", 3), ("d4", 4)]⟩)] = .ok cd
      ∧ (("XYZ", AssetDF.price ⟨[("d1", 1), ("d2", 2), ("d3", 3), ("d4", 4)]⟩) ∈ cd.prices ↔
          AssetDF.len ⟨[("d1", 1), ("d2", 2), ("d3", 3), ("d4", 4)]⟩ =
          AssetDF.len ⟨[("d1", 1), ("d2", 2), ("d3", 3), ("d4", 4), ("d5", 5)]⟩)
      ∧ (("XYZ", AssetDF.daily_return ⟨[("d1", 1), ("d2", 2), ("d3", 3), ("d4", 4)]⟩) ∈ cd.returns ↔
          AssetDF.len ⟨[("d1", 1), ("d2", 2), ("d3", 3), ("d4", 4)]⟩ =
          AssetDF.len ⟨[("d1", 1), ("d2", 2), ("d3", 3), ("d4", 4), ("d5", 5)]⟩)
      ∧ (AssetDF.len ⟨[("d1", 1), ("d2", 2), ("d3", 3), ("d4", 4)]⟩ ≠
          AssetDF.len ⟨[("d1", 1), ("d2", 2), ("d3", 3), ("d4", 4), ("d5", 5)]⟩ →
          (∀ c ∈ cd.prices, c.1 ≠ "XYZ") ∧ (∀ c ∈ cd.returns, c.1 ≠ "XYZ")) :=
  asset_included_iff_length_matches _ "XYZ" _ (by decide) (by decide) (by decide)

/-- C9. For a non-empty input mapping the first (reference) asset is
always included in both combined matrices, so both have at least one
asset column. -/
theorem reference_asset_always_included (hd : List (String × AssetDF)) (h0 : hd ≠ []) :
    ∃ cd, save_combined_data hd = .ok cd
      ∧ ((hd.head h0).1, (hd.head h0).2.price) ∈ cd.prices
      ∧ ((hd.head h0).1, (hd.head h0).2.daily_return) ∈ cd.returns
      ∧ cd.prices ≠ [] ∧ cd.returns ≠ [] := by
  match hd, h0 with
  | (s₀, df₀) :: tl, _ =>
    have hp : (s₀, AssetDF.price df₀) ∈
        ((s₀, df₀) :: tl).filterMap (fun p =>
          if p.2.len = df₀.len then some (p.1, p.2.price) else none) :=
      List.mem_filterMap.2 ⟨(s₀, df₀), List.mem_cons_self _ _, by simp⟩
    have hr : (s₀, AssetDF.daily_return df₀) ∈
        ((s₀, df₀) :: tl).filterMap (fun p =>
          if p.2.len = df₀.len then some (p.1, p.2.daily_return) else none) :=
      List.mem_filterMap.2 ⟨(s₀, df₀), List.mem_cons_self _ _, by simp⟩
    exact ⟨_, rfl, hp, hr, List.ne_nil_of_mem hp, List.ne_nil_of_mem hr⟩

/-- Witness for C9 at a one-asset input mapping. -/
theorem reference_asset_always_included_witness :
    ∃ cd, save_combined_data [("BTC", ⟨[("d1", 1), ("d2", 2)]⟩)] = .ok cd
      ∧ ("BTC", AssetDF.price ⟨[("d1", 1), ("d2", 2)]⟩) ∈ cd.prices
      ∧ ("BTC", AssetDF.daily_return ⟨[("d1", 1), ("d2", 2)]⟩) ∈ cd.returns
      ∧ cd.prices ≠ [] ∧ cd.returns ≠ [] :=
  reference_asset_always_included [("BTC", ⟨[("d1", 1), ("d2", 2)]⟩)] (by decide)

/-! ### Market average: cross-sectional mean over present entries only -/

/-- C4. For every date index `t` of the aligned window, the market
return of `calculate_market_average` is the arithmetic mean of exactly
the present (non-missing) return values of that date's row — missing
entries appear in neither the numerator nor the denominator (and an
all-missing row gives the undefined value, not 0).  The claim's
scenario: with asset returns `[0.1, 0.2]` and `[0.0, missing]`, day 1
is `mean(0.1, 0.0) = 0.05` and day 2 is `0.2` alone. -/
theorem market_average_excludes_missing (cols : List (String × Col))
    (dates : List String) (t : ℕ) :
    ((calculate_market_average ⟨dates, cols⟩).getD t none =
      if t < dates.length then
        (if ((cols.map (fun c => c.2.getD t none)).filterMap id) = [] then none
         else some (((cols.map (fun c => c.2.getD t none)).filterMap id).sum /
           ((cols.map (fun c => c.2.getD t none)).filterMap id).length))
      else none)
    ∧ calculate_market_average
        ⟨["d1", "d2"], [("A", [some (1/10), some (2/10)]), ("B", [some 0, none])]⟩
        = [some (1/20), some (1/5)] := by
  constructor
  · rw [calculate_market_average]
    rcases lt_or_ge t dates.length with h | h
    · rw [List.getD_eq_getElem?_getD, List.getElem?_map, List.getElem?_range h]
      simp only [Option.map_some', Option.getD_some, if_pos h, nanmean, presentVals,
        List.length_eq_zero]
    · rw [List.getD_eq_getElem?_getD, List.getElem?_map,
        List.getElem?_eq_none (by simpa using h)]
      simp [not_lt.2 h]
  · norm_num [calculate_market_average, nanmean, presentVals, List.range_succ,
      List.filterMap_cons]
    intro h
    simp at h

/-! ### Outlier filters: strict threshold comparisons -/

lemma calculate_price_distance_eq_some {rdf : ReturnsDF} {mkt : List (Option ℚ)}
    {th : ℚ} {res : PriceDistanceResult}
    (h : calculate_price_distance rdf mkt th = some res) :
    ∃ fm : ℚ,
      ((cumprod (mkt.map (fun o => 1 + o.getD 0))).map (fun x => x - 1)).getLast? = some fm
      ∧ res = { distance_df := List.insertionSort distGE
                  ((rdf.cols.map fun c => (c.1, cum_returns_col c.2)).map fun p =>
                    { symbol := p.1
                      cumulative_return := p.2.getLastD 0
                      price_distance := |p.2.getLastD 0 - fm|
                      market_return := fm
                      relative_distance := fdivQ |p.2.getLastD 0 - fm| |fm| })
                out_of_threshold := (List.insertionSort distGE
                  ((rdf.cols.map fun c => (c.1, cum_returns_col c.2)).map fun p =>
                    { symbol := p.1
                      cumulative_return := p.2.getLastD 0
                      price_distance := |p.2.getLastD 0 - fm|
                      market_return := fm
                      relative_distance := fdivQ |p.2.getLastD 0 - fm| |fm| })).filter
                    (fun r => decide (th < r.price_distance))
                cum_returns := rdf.cols.map fun c => (c.1, cum_returns_col c.2)
                cum_dates := rdf.date
                market_cum_return := (cumprod (mkt.map (fun o => 1 + o.getD 0))).map (fun x => x - 1) } := by
  rw [calculate_price_distance] at h
  rcases hl : ((cumprod (mkt.map (fun o => 1 + o.getD 0))).map (fun x => x - 1)).getLast? with _ | fm
  · rw [hl] at h; cases h
  · rw [hl] at h
    exact ⟨fm, rfl, (Option.some.inj h).symm⟩

/-- C5. Both outlier filters are strict: a row of the
average-correlation table is in `identify_uncorrelated_coins` iff its
value is strictly below the threshold (so a value exactly equal to the
threshold is excluded, and an undefined value is excluded), and a row
of the divergence table is in `out_of_threshold` iff its price
distance is strictly above the threshold (so exact equality is
excluded). -/
theorem outlier_filters_strict (m : List (String × List (Option ℝ))) (θ : ℝ)
    (rdf : ReturnsDF) (mkt : List (Option ℚ)) (th : ℚ) (res : PriceDistanceResult)
    (hres : calculate_price_distance rdf mkt th = some res) :
    (∀ r, r ∈ identify_uncorrelated_coins m θ ↔
      (r ∈ avg_correlation_table m ∧ optLtR r.2 θ))
    ∧ (∀ s, (s, some θ) ∉ identify_uncorrelated_coins m θ)
    ∧ (∀ r, r ∈ res.out_of_threshold ↔ (r ∈ res.distance_df ∧ th < r.price_distance))
    ∧ (∀ r, r.price_distance = th → r ∉ res.out_of_threshold) := by
  classical
  have hmem : ∀ r, r ∈ identify_uncorrelated_coins m θ ↔
      (r ∈ avg_correlation_table m ∧ optLtR r.2 θ) := by
    intro r
    rw [identify_uncorrelated_coins, List.mem_filter, List.mem_insertionSort,
      decide_eq_true_iff]
  refine ⟨hmem, ?_, ?_, ?_⟩
  · intro s hs
    exact lt_irrefl θ ((hmem _).1 hs).2
  · intro r
    rcases calculate_price_distance_eq_some hres with ⟨fm, _, hres'⟩
    subst hres'
    rw [List.mem_filter, decide_eq_true_iff]
  · intro r hr hrin
    rcases calculate_price_distance_eq_some hres with ⟨fm, _, hres'⟩
    subst hres'
    rw [List.mem_filter, decide_eq_true_iff] at hrin
    exact lt_irrefl th (hr ▸ hrin.2)

/-- Witness for C5 at a one-asset divergence run and an empty
correlation table. -/
theorem outlier_filters_strict_witness :
    (∀ r, r ∈ identify_uncorrelated_coins [] (1/2) ↔
      (r ∈ avg_correlation_table [] ∧ optLtR r.2 (1/2)))
    ∧ (∀ s, (s, some ((1:ℝ)/2)) ∉ identify_uncorrelated_coins [] (1/2))
    ∧ (∀ r, r ∈ PriceDistanceResult.out_of_threshold
          ⟨[⟨"A", 1, 0, 1, .fin 0⟩], [], [("A", [1])], ["d1"], [1]⟩ ↔
        (r ∈ PriceDistanceResult.distance_df
          ⟨[⟨"A", 1, 0, 1, .fin 0⟩], [], [("A", [1])], ["d1"], [1]⟩
          ∧ 3/10 < r.price_distance))
    ∧ (∀ r, r.price_distance = 3/10 → r ∉ PriceDistanceResult.out_of_threshold
          ⟨[⟨"A", 1, 0, 1, .fin 0⟩], [], [("A", [1])], ["d1"], [1]⟩) :=
  outlier_filters_strict [] (1/2) ⟨["d1"], [("A", [some 1])]⟩ [some 1] (3/10)
    ⟨[⟨"A", 1, 0, 1, .fin 0⟩], [], [("A", [1])], ["d1"], [1]⟩
    (by norm_num [calculate_price_distance, cum_returns_col, cumprod, fdivQ,
      List.insertionSort, List.orderedInsert, distGE])

/-! ### Undefined statistics: NaN versus infinity sentinels -/

lemma corrEntry_of_no_overlap (xs ys : Col) (h : overlap xs ys = []) :
    corrEntry xs ys = none := by
  rw [corrEntry]
  simp [h]

lemma fdivQ_abs_classify (d m : ℚ) (hd : 0 ≤ d) :
    (fdivQ d |m| = FloatVal.nan ↔ (m = 0 ∧ d = 0))
    ∧ (fdivQ d |m| = FloatVal.pinf ↔ (m = 0 ∧ d ≠ 0))
    ∧ fdivQ d |m| ≠ FloatVal.ninf := by
  rw [fdivQ]
  by_cases hm : |m| = 0
  · have hm' : m = 0 := abs_eq_zero.1 hm
    rw [if_pos hm]
    by_cases hdz : d = 0
    · rw [if_pos hdz]; simp [hm', hdz]
    · rw [if_neg hdz, if_pos (lt_of_le_of_ne hd (Ne.symm hdz))]
      simp [hm', hdz]
  · have hm' : m ≠ 0 := fun h => hm (by simp [h])
    rw [if_neg hm]
    simp [hm']

/-- Counterexample to C6: with assets `[NaN, 1.0]` and `[NaN, -1.0]`
the final market cumulative return is exactly 0 while each asset's
distance is 1, and the relative distance comes out as positive
infinity — a non-finite sentinel, but not the claimed
"not a number" value. -/
theorem undefined_sentinel_cex :
    ((calculate_price_distance ⟨["d1", "d2"], [("A", [none, some 1]), ("B", [none, some (-1)])]⟩
        (calculate_market_average ⟨["d1", "d2"], [("A", [none, some 1]), ("B", [none, some (-1)])]⟩)
        (3/10)).map (fun res => res.distance_df.map (fun r => r.relative_distance)))
      = some [.pinf, .pinf]
    ∧ (FloatVal.pinf : FloatVal ℚ) ≠ FloatVal.nan := by
  constructor
  · norm_num [calculate_price_distance, calculate_market_average, nanmean, presentVals,
      cum_returns_col, cumprod, fdivQ, List.range_succ, List.filterMap_cons,
      List.insertionSort, List.orderedInsert, distGE]
  · intro h; cases h

/-- C6 as amended.  Every statistically undefined quantity is an
explicit non-finite sentinel, never coerced to 0, dropped, or raised
as an error: a correlation with zero overlapping valid points is NaN;
the reward/variance ratio with std = 0 is NaN exactly when the mean is
also 0 and ±infinity otherwise; the relative distance is obtained by
float division by `|finalMarketCumulative|`, and when that denominator
is exactly 0 it is NaN for a zero distance and +infinity for a nonzero
one (never -infinity). -/
theorem undefined_statistics_classified (xs ys : Col) (c : Col)
    (rdf : ReturnsDF) (mkt : List (Option ℚ)) (th : ℚ) (res : PriceDistanceResult)
    (hover : overlap xs ys = [])
    (hstd : nanstd c = some 0)
    (hres : calculate_price_distance rdf mkt th = some res) :
    corrEntry xs ys = none
    ∧ sharpe_value c = (match nanmean c with
        | none => FloatVal.nan
        | some a => if a = 0 then FloatVal.nan
            else if 0 < a then FloatVal.pinf else FloatVal.ninf)
    ∧ (∀ r ∈ res.distance_df,
        r.relative_distance = fdivQ r.price_distance |r.market_return|
        ∧ (r.relative_distance = FloatVal.nan ↔
            (r.market_return = 0 ∧ r.price_distance = 0))
        ∧ (r.relative_distance = FloatVal.pinf ↔
            (r.market_return = 0 ∧ r.price_distance ≠ 0))
        ∧ r.relative_distance ≠ FloatVal.ninf) := by
  refine ⟨corrEntry_of_no_overlap xs ys hover, ?_, ?_⟩
  · rw [sharpe_value]
    rcases hm : nanmean c with _ | a
    · rw [hstd]
      rfl
    · rw [hstd]
      by_cases ha : a = 0
      · simp [ha, scaleSqrt365]
      · by_cases ha' : 0 < a
        · simp [ha, ha', scaleSqrt365]
        · simp [ha, ha', scaleSqrt365]
  · intro r hr
    rcases calculate_price_distance_eq_some hres with ⟨fm, _, hres'⟩
    subst hres'
    rw [List.mem_insertionSort] at hr
    rcases List.mem_map.1 hr with ⟨p, _, hp⟩
    subst hp
    exact ⟨rfl, fdivQ_abs_classify _ fm (abs_nonneg _)⟩

/-- Witness for C6 as amended: a zero-overlap column pair, a constant
column (std 0, mean 2, ratio +infinity), and a concrete one-asset
divergence run. -/
theorem undefined_statistics_classified_witness :
    corrEntry [none] [some 1] = none
    ∧ sharpe_value [some 2, some 2] = (match nanmean [some 2, some 2] with
        | none => FloatVal.nan
        | some a => if a = 0 then FloatVal.nan
            else if 0 < a then FloatVal.pinf else FloatVal.ninf)
    ∧ (∀ r ∈ PriceDistanceResult.distance_df
          ⟨[⟨"B", 2, 0, 2, .fin 0⟩], [], [("B", [2])], ["d1"], [2]⟩,
        r.relative_distance = fdivQ r.price_distance |r.market_return|
        ∧ (r.relative_distance = FloatVal.nan ↔
            (r.market_return = 0 ∧ r.price_distance = 0))
        ∧ (r.relative_distance = FloatVal.pinf ↔
            (r.market_return = 0 ∧ r.price_distance ≠ 0))
        ∧ r.relative_distance ≠ FloatVal.ninf) :=
  undefined_statistics_classified [none] [some 1] [some 2, some 2]
    ⟨["d1"], [("B", [some 2])]⟩ [some 2] (1/10)
    ⟨[⟨"B", 2, 0, 2, .fin 0⟩], [], [("B", [2])], ["d1"], [2]⟩
    rfl
    (by norm_num [nanstd, nanvar, presentVals, List.filterMap_cons, Real.sqrt_zero])
    (by norm_num [calculate_price_distance, cum_returns_col, cumprod, fdivQ,
      List.insertionSort, List.orderedInsert, distGE])

/-! ### Correlation matrix: shape, symmetry, diagonal, bounds -/

lemma zip_self (c : Col) : List.zip c c = c.map (fun x => (x, x)) := by
  induction c with
  | nil => rfl
  | cons x xs ih => simp [List.zip_cons_cons, ih]


lemma overlap_self_mem (c : Col) : ∀ p ∈ overlap c c, p.1 = p.2 := by
  intro p hp
  rw [overlap, zip_self] at hp
  rcases List.mem_filterMap.1 hp with ⟨q, hq, hfq⟩
  rcases List.mem_map.1 hq with ⟨x, _, hx⟩
  subst hx
  cases x with
  | none => cases hfq
  | some a =>
    have h := Option.some.inj hfq
    rw [← h]

lemma overlap_swap (xs ys : Col) : overlap ys xs = (overlap xs ys).map Prod.swap := by
  induction xs generalizing ys with
  | nil => cases ys <;> rfl
  | cons x xs ih =>
    cases ys with
    | nil => rfl
    | cons y ys =>
      cases x <;> cases y <;>
        simp [overlap, List.zip_cons_cons, List.filterMap_cons] at ih ⊢ <;>
        exact ih ys

lemma fst_comp_swap : (Prod.fst ∘ Prod.swap : ℚ × ℚ → ℚ) = Prod.snd := rfl

lemma snd_comp_swap : (Prod.snd ∘ Prod.swap : ℚ × ℚ → ℚ) = Prod.fst := rfl

lemma meanFst_swap (ps : List (ℚ × ℚ)) : meanFst (ps.map Prod.swap) = meanSnd ps := by
  simp [meanFst, meanSnd, List.map_map, fst_comp_swap]

lemma meanSnd_swap (ps : List (ℚ × ℚ)) : meanSnd (ps.map Prod.swap) = meanFst ps := by
  simp [meanFst, meanSnd, List.map_map, snd_comp_swap]

lemma cSumXX_swap (ps : List (ℚ × ℚ)) : cSumXX (ps.map Prod.swap) = cSumYY ps := by
  simp [cSumXX, cSumYY, List.map_map, meanFst_swap, Function.comp_def]

lemma cSumYY_swap (ps : List (ℚ × ℚ)) : cSumYY (ps.map Prod.swap) = cSumXX ps := by
  simp [cSumXX, cSumYY, List.map_map, meanSnd_swap, Function.comp_def]

lemma cSumXY_swap (ps : List (ℚ × ℚ)) : cSumXY (ps.map Prod.swap) = cSumXY ps := by
  simp only [cSumXY, List.map_map, meanFst_swap, meanSnd_swap, Function.comp_def,
    Prod.fst_swap, Prod.snd_swap]
  congr 1
  exact List.map_congr_left fun p _ => mul_comm _ _

lemma corrEntry_comm (xs ys : Col) : corrEntry xs ys = corrEntry ys xs := by
  simp only [corrEntry, overlap_swap xs ys, List.length_map, cSumXX_swap, cSumYY_swap,
    cSumXY_swap]
  rw [mul_comm (cSumYY (overlap xs ys)) (cSumXX (overlap xs ys))]
  rw [mul_comm ((cSumYY (overlap xs ys) : ℝ)) ((cSumXX (overlap xs ys) : ℝ))]

lemma clip_mem (v : ℝ) : -1 ≤ clip v ∧ clip v ≤ 1 := by
  rw [clip]
  split_ifs with h1 h2
  · norm_num
  · norm_num
  · exact ⟨not_lt.1 h2, not_lt.1 h1⟩

/-- Whether an optional correlation value lies in `[-1, 1]` when it is
present. -/
def inUnitOpt : Option ℝ → Prop
  | none => True
  | some v => -1 ≤ v ∧ v ≤ 1

lemma corrEntry_inUnit (xs ys : Col) : inUnitOpt (corrEntry xs ys) := by
  rw [corrEntry]
  split_ifs with h1 h2
  · trivial
  · trivial
  · exact clip_mem _

lemma corrEntry_none_of {xs ys : Col} (h : corrDefinedb xs ys = false) :
    corrEntry xs ys = none := by
  rw [corrDefinedb, decide_eq_false_iff_not] at h
  push_neg at h
  rw [corrEntry]
  by_cases h1 : (overlap xs ys).length < 1
  · rw [if_pos h1]
  · rw [if_neg h1, if_pos (h (by omega))]

lemma corrEntry_self_of {c : Col} (h : corrDefinedb c c = true) :
    corrEntry c c = some 1 := by
  rw [corrDefinedb, decide_eq_true_iff] at h
  obtain ⟨hlen, hprod⟩ := h
  have hsnd : (overlap c c).map Prod.snd = (overlap c c).map Prod.fst :=
    List.map_congr_left fun p hp => (overlap_self_mem c p hp).symm
  have hmean : meanSnd (overlap c c) = meanFst (overlap c c) := by
    rw [meanSnd, meanFst, hsnd]
  have hyy : cSumYY (overlap c c) = cSumXX (overlap c c) := by
    rw [cSumYY, cSumXX]
    congr 1
    exact List.map_congr_left fun p hp => by
      rw [hmean, overlap_self_mem c p hp]
  have hxy : cSumXY (overlap c c) = cSumXX (overlap c c) := by
    rw [cSumXY, cSumXX]
    congr 1
    exact List.map_congr_left fun p hp => by
      rw [hmean, overlap_self_mem c p hp, sq]
  rw [hyy] at hprod
  have hne : cSumXX (overlap c c) ≠ 0 := fun h0 => hprod (by rw [h0, mul_zero])
  have hnn : 0 ≤ cSumXX (overlap c c) := by
    apply List.sum_nonneg
    intro x hx
    rcases List.mem_map.1 hx with ⟨p, _, hp⟩
    rw [← hp]
    exact sq_nonneg _
  rw [corrEntry, if_neg (by omega), hyy, hxy, if_neg hprod]
  have hcast : (0 : ℝ) ≤ (cSumXX (overlap c c) : ℝ) := by exact_mod_cast hnn
  rw [Real.sqrt_mul_self hcast, div_self (by exact_mod_cast hne)]
  have h1 : clip 1 = 1 := by norm_num [clip]
  rw [h1]

lemma corr_matrix_entry (cols : List (String × Col)) (i j : ℕ) :
    ((create_correlation_matrix cols).getD i ("", [])).2.getD j none
    = if i < cols.length ∧ j < cols.length
      then corrEntry (cols.getD i ("", [])).2 (cols.getD j ("", [])).2
      else none := by
  by_cases hi : i < cols.length
  · by_cases hj : j < cols.length
    · simp only [List.getD_eq_getElem?_getD, create_correlation_matrix, List.getElem?_map,
        List.getElem?_eq_getElem hi, List.getElem?_eq_getElem hj, Option.map_some',
        Option.getD_some, if_pos (And.intro hi hj)]
    · simp only [List.getD_eq_getElem?_getD, create_correlation_matrix, List.getElem?_map,
        List.getElem?_eq_getElem hi, List.getElem?_eq_none (not_lt.1 hj), Option.map_some',
        Option.map_none', Option.getD_some, Option.getD_none]
      simp [hj]
  · simp only [List.getD_eq_getElem?_getD, create_correlation_matrix, List.getElem?_map,
      List.getElem?_eq_none (not_lt.1 hi), Option.map_none', Option.getD_none]
    simp [hi]

/-- C1 as amended.  For every aligned return matrix the correlation
matrix is square (one row per asset, each row as long as the asset
list, labels preserved) and symmetric, every present entry lies in
`[-1, 1]`, and a diagonal entry equals 1.0 exactly when its column has
at least one valid observation and nonzero variance — for a
zero-variance (or empty) column the diagonal entry is the undefined
sentinel, not 1.0. -/
theorem correlation_matrix_shape (cols : List (String × Col)) :
    ((create_correlation_matrix cols).map Prod.fst = cols.map Prod.fst)
    ∧ ((create_correlation_matrix cols).map (fun r => r.2.length)
        = List.replicate cols.length cols.length)
    ∧ (∀ i j, ((create_correlation_matrix cols).getD i ("", [])).2.getD j none
        = ((create_correlation_matrix cols).getD j ("", [])).2.getD i none)
    ∧ (∀ i, ((create_correlation_matrix cols).getD i ("", [])).2.getD i none
        = if i < cols.length ∧
            corrDefinedb (cols.getD i ("", [])).2 (cols.getD i ("", [])).2 = true
          then some 1 else none)
    ∧ (∀ i j,
        inUnitOpt (((create_correlation_matrix cols).getD i ("", [])).2.getD j none)) := by
  refine ⟨?_, ?_, ?_, ?_, ?_⟩
  · simp [create_correlation_matrix, List.map_map, Function.comp_def]
  · simp [create_correlation_matrix, List.map_map, Function.comp_def]
  · intro i j
    rw [corr_matrix_entry, corr_matrix_entry]
    by_cases h : i < cols.length ∧ j < cols.length
    · rw [if_pos h, if_pos (And.intro h.2 h.1), corrEntry_comm]
    · rw [if_neg h, if_neg (fun hh => h ⟨hh.2, hh.1⟩)]
  · intro i
    rw [corr_matrix_entry]
    by_cases hi : i < cols.length
    · by_cases hdef :
        corrDefinedb (cols.getD i ("", [])).2 (cols.getD i ("", [])).2 = true
      · rw [if_pos ⟨hi, hi⟩, if_pos ⟨hi, hdef⟩, corrEntry_self_of hdef]
      · have hf : corrDefinedb (cols.getD i ("", [])).2 (cols.getD i ("", [])).2 = false :=
          Bool.eq_false_iff.2 hdef
        rw [if_pos ⟨hi, hi⟩, if_neg (fun hh => hdef hh.2), corrEntry_none_of hf]
    · rw [if_neg (fun hh => hi hh.1), if_neg (fun hh => hi hh.1)]
  · intro i j
    rw [corr_matrix_entry]
    by_cases h : i < cols.length ∧ j < cols.length
    · rw [if_pos h]; exact corrEntry_inUnit _ _
    · rw [if_neg h]; trivial

/-- Counterexample to C1: the aligned return column of a
constant-price asset is `[NaN, 0, 0]`, a zero-variance column, and its
diagonal correlation entry is the undefined sentinel, not 1.0. -/
theorem corr_diagonal_not_one_cex :
    create_correlation_matrix [("A", [none, some 0, some 0])] = [("A", [none])]
    ∧ (none : Option ℝ) ≠ some 1 := by
  constructor
  · have h : corrDefinedb [none, some 0, some 0] [none, some 0, some 0] = false := by
      rw [corrDefinedb, decide_eq_false_iff_not]
      norm_num [overlap, cSumXX, cSumYY, meanFst, meanSnd, List.zip_cons_cons,
        List.filterMap_cons]
    rw [create_correlation_matrix]
    simp [corrEntry_none_of h]
  · simp

/-! ### Comparison payload: coins match the out-of-threshold table -/

/-- C10.  For an aligned return matrix (every column as long as the
date axis, at least one date, unique symbols — the regime where the
Python `coins` dict collapses nothing), the divergence stage succeeds
and in the generated comparison payload the coin symbols are exactly
the symbols of the out-of-threshold table (in order), and the `dates`,
`market_avg` and every coin's `data` list all have one entry per date
of the aligned window. -/
theorem comparison_payload_consistent (rdf : ReturnsDF) (θ : ℚ)
    (hlen : ∀ c ∈ rdf.cols, c.2.length = rdf.date.length)
    (hne : rdf.date ≠ [])
    (_hnd : (rdf.cols.map Prod.fst).Nodup) :
    ∃ res, calculate_price_distance rdf (calculate_market_average rdf) θ = some res
      ∧ ((generate_comparison_data res.cum_returns res.cum_dates
            res.market_cum_return res.out_of_threshold).coins.map Prod.fst
          = res.out_of_threshold.map DistRow.symbol)
      ∧ (generate_comparison_data res.cum_returns res.cum_dates
            res.market_cum_return res.out_of_threshold).dates.length = rdf.date.length
      ∧ (generate_comparison_data res.cum_returns res.cum_dates
            res.market_cum_return res.out_of_threshold).market_avg.length = rdf.date.length
      ∧ (∀ p ∈ (generate_comparison_data res.cum_returns res.cum_dates
            res.market_cum_return res.out_of_threshold).coins,
          p.2.data.length = rdf.date.length) := by
  have hml : (calculate_market_average rdf).length = rdf.date.length := by
    simp [calculate_market_average]
  have hLlen : ((cumprod ((calculate_market_average rdf).map
      (fun o => 1 + o.getD 0))).map (fun x => x - 1)).length = rdf.date.length := by
    simp [cumprod_length, hml]
  have hLne : ((cumprod ((calculate_market_average rdf).map
      (fun o => 1 + o.getD 0))).map (fun x => x - 1)) ≠ [] := by
    intro h
    rw [h] at hLlen
    exact hne (List.length_eq_zero.1 hLlen.symm)
  obtain ⟨fm, hfm⟩ := Option.isSome_iff_exists.1 (List.getLast?_isSome.2 hLne)
  have hsome : ∃ res,
      calculate_price_distance rdf (calculate_market_average rdf) θ = some res := by
    rw [calculate_price_distance, hfm]
    exact ⟨_, rfl⟩
  obtain ⟨res, hres⟩ := hsome
  refine ⟨res, hres, ?_, ?_, ?_, ?_⟩
  all_goals rcases calculate_price_distance_eq_some hres with ⟨fm', _, hres'⟩
  all_goals subst hres'
  · simp [generate_comparison_data, List.map_map, Function.comp_def]
  · rfl
  · simpa [generate_comparison_data, cumprod_length] using hml
  · intro p hp
    rcases List.mem_map.1 hp with ⟨r, hr, hpr⟩
    rw [List.mem_filter, List.mem_insertionSort] at hr
    rcases List.mem_map.1 hr.1 with ⟨q, hq, hqr⟩
    have hsym : r.symbol = q.1 := by rw [← hqr]
    have hfq : (rdf.cols.map fun c => (c.1, cum_returns_col c.2)).find?
        (fun p => p.1 = r.symbol) |>.isSome := by
      apply List.find?_isSome.2
      exact ⟨q, hq, by simp [hsym]⟩
    obtain ⟨q', hfind⟩ := Option.isSome_iff_exists.1 hfq
    have hq'mem := List.mem_of_find?_eq_some hfind
    rcases List.mem_map.1 hq'mem with ⟨c, hc, hcq'⟩
    have hdata : p.2.data = q'.2 := by
      rw [← hpr]
      simp [hfind]
    rw [hdata, ← hcq']
    rw [cum_returns_col_length]
    exact hlen c hc

/-- Witness for C10 at a one-asset, one-date aligned matrix. -/
theorem comparison_payload_consistent_witness :
    ∃ res, calculate_price_distance ⟨["d1"], [("A", [some 1])]⟩
        (calculate_market_average ⟨["d1"], [("A", [some 1])]⟩) 0 = some res
      ∧ ((generate_comparison_data res.cum_returns res.cum_dates
            res.market_cum_return res.out_of_threshold).coins.map Prod.fst
          = res.out_of_threshold.map DistRow.symbol)
      ∧ (generate_comparison_data res.cum_returns res.cum_dates
            res.market_cum_return res.out_of_threshold).dates.length
          = (["d1"] : List String).length
      ∧ (generate_comparison_data res.cum_returns res.cum_dates
            res.market_cum_return res.out_of_threshold).market_avg.length
          = (["d1"] : List String).length
      ∧ (∀ p ∈ (generate_comparison_data res.cum_returns res.cum_dates
            res.market_cum_return res.out_of_threshold).coins,
          p.2.data.length = (["d1"] : List String).length) :=
  comparison_payload_consistent ⟨["d1"], [("A", [some 1])]⟩ 0
    (by decide) (by decide) (by decide)
